import Mathlib

/-!
Verification of the country boundary ingestion and spatial-picking engine of
the GlobeMapQuiz repository (`src/globe/countries.js`, `src/globe/globe.js`,
`src/core/scene.js`).

Shallow embedding conventions:
  * JS numbers appearing in data processing (coordinates, accumulators) are
    modelled as exact rationals; the trigonometric projection code is
    modelled over the reals.
  * JS `Map` objects are modelled as functions `Nat -> Option Feature`
    updated on `set` (later `set` on the same key overwrites, exactly as
    `Map.prototype.set`).
  * `Math.atan2 y x` is modelled as the principal argument of the complex
    number `x + y*I` (range `(-pi, pi]`, `atan2 0 0 = 0`), which is its
    mathematical specification.
  * Fields irrelevant to data processing (three.js materials, canvases as
    textures) are not modelled; the lookup canvas is modelled as its
    observable contents, a `width x height` grid of RGB pixels read through
    `getImageData`.
-/

namespace GlobeMapQuiz

/-! ## Geometry data model

GeoJSON `geometry.coordinates` is an arbitrarily nested array whose leaves
are positions `[lon, lat]`.  The source walks it with a recursive
`processCoords` that treats a node as a leaf exactly when
`typeof coords[0] === 'number'`. -/

/-- Nested coordinate array of a GeoJSON geometry: a leaf position
`[longitude, latitude]` or an array of nested coordinate arrays. -/
inductive Coords where
  | pt (lon lat : ℚ)
  | arr (cs : List Coords)

/-- GeoJSON geometry object as consumed by the renderer: the `coordinates`
field may be absent (`geometry.coordinates` is falsy), and `type` is the
GeoJSON type tag (used only by the drawing helpers, which are not part of
any claim). -/
structure Geometry where
  type : String
  coordinates : Option Coords

mutual

/-- Specification-side flattening: the list of `(lon, lat)` leaf positions
of a coordinate tree in depth-first (source iteration) order. -/
def vertices : Coords → List (ℚ × ℚ)
  | .pt lon lat => [(lon, lat)]
  | .arr cs => verticesList cs

/-- Flattening of a list of coordinate trees, in order. -/
def verticesList : List Coords → List (ℚ × ℚ)
  | [] => []
  | c :: rest => vertices c ++ verticesList rest

end

/-- All leaf vertices of a geometry; empty when `coordinates` is absent. -/
def geometryVertices (geometry : Geometry) : List (ℚ × ℚ) :=
  match geometry.coordinates with
  | some c => vertices c
  | none => []

/-- Induction over the nested coordinate tree: to prove `P` everywhere it
suffices to prove it at leaves and at arrays all of whose members satisfy
`P`. -/
theorem Coords.inductionOn {P : Coords → Prop}
    (hpt : ∀ lon lat, P (.pt lon lat))
    (harr : ∀ cs, (∀ c ∈ cs, P c) → P (.arr cs)) : ∀ c, P c
  | .pt lon lat => hpt lon lat
  | .arr cs => harr cs (fun c _ => c.inductionOn hpt harr)
termination_by c => sizeOf c
decreasing_by
  have h1 : sizeOf c < sizeOf cs := List.sizeOf_lt_of_mem (by assumption)
  simp only [Coords.arr.sizeOf_spec]
  omega

/-! ## Geometric analysis (`_calculateCentroid`, `_calculateBounds`) -/

/-- Mutable accumulator of `_calculateCentroid`: `totalLat`, `totalLon`,
`count`. -/
structure CentroidAcc where
  totalLat : ℚ
  totalLon : ℚ
  count : ℕ

mutual

/-- One call of the source `processCoords` closure of `_calculateCentroid`
on a node, threading the accumulator: a leaf adds `coords[0]` to
`totalLon`, `coords[1]` to `totalLat` and bumps `count`; an array runs
`coords.forEach(processCoords)`. -/
def centroidStep : Coords → CentroidAcc → CentroidAcc
  | .pt lon lat, acc => ⟨acc.totalLat + lat, acc.totalLon + lon, acc.count + 1⟩
  | .arr cs, acc => centroidSteps cs acc

/-- The `forEach` loop of `_calculateCentroid` over an array of nodes. -/
def centroidSteps : List Coords → CentroidAcc → CentroidAcc
  | [], acc => acc
  | c :: rest, acc => centroidSteps rest (centroidStep c acc)

end

/-- Centroid record returned by `_calculateCentroid`. -/
structure Centroid where
  lat : ℚ
  lon : ℚ
deriving DecidableEq

/-- Source `_calculateCentroid(geometry)`: runs `processCoords` on
`geometry.coordinates` when present, then returns the totals divided by the
count when `count > 0` and `(lat 0, lon 0)` otherwise. -/
def _calculateCentroid (geometry : Geometry) : Centroid :=
  let acc : CentroidAcc :=
    match geometry.coordinates with
    | some c => centroidStep c ⟨0, 0, 0⟩
    | none => ⟨0, 0, 0⟩
  if 0 < acc.count then ⟨acc.totalLat / acc.count, acc.totalLon / acc.count⟩
  else ⟨0, 0⟩

/-- Bounds record returned by `_calculateBounds`. -/
structure Bounds where
  minLat : ℚ
  maxLat : ℚ
  minLon : ℚ
  maxLon : ℚ
deriving DecidableEq

mutual

/-- One call of the source `processCoords` closure of `_calculateBounds`:
a leaf updates the four running extrema with `Math.min`/`Math.max`; an
array runs `coords.forEach(processCoords)`. -/
def boundsStep : Coords → Bounds → Bounds
  | .pt lon lat, b =>
      ⟨min b.minLat lat, max b.maxLat lat, min b.minLon lon, max b.maxLon lon⟩
  | .arr cs, b => boundsSteps cs b

/-- The `forEach` loop of `_calculateBounds` over an array of nodes. -/
def boundsSteps : List Coords → Bounds → Bounds
  | [], b => b
  | c :: rest, b => boundsSteps rest (boundsStep c b)

end

/-- Source `_calculateBounds(geometry)`: extrema start at
`minLat=90, maxLat=-90, minLon=180, maxLon=-180` and are folded over every
leaf of `geometry.coordinates` when present. -/
def _calculateBounds (geometry : Geometry) : Bounds :=
  match geometry.coordinates with
  | some c => boundsStep c ⟨90, -90, 180, -180⟩
  | none => ⟨90, -90, 180, -180⟩

/-! ## Topology ingestion (`load`) -/

/-- The `properties` object of an input GeoJSON feature; `name` may be
absent. -/
structure InputProps where
  name : Option String

/-- One record of the feature collection produced by
`topojson.feature(...)`: `id` and `properties` may be absent.  Declared ids
are modelled as naturals (world-atlas uses numeric ids); JS falsiness of a
declared `id` of `0` is reflected in `load` below. -/
structure InputFeature where
  id : Option ℕ
  properties : Option InputProps
  geometry : Geometry

/-- Processed country record built by `load`. -/
structure Feature where
  id : ℕ
  name : String
  geometry : Geometry
  centroid : Centroid
  bounds : Bounds

/-- Data-processing core of the source `load()`:
`countries.features.map((feature, index) => ...)` with
`id: feature.id || index` (JS `||`: an absent or zero declared id falls
back to the index) and
`name: props.name || 'Country ' + index` (an absent or empty declared name
falls back to the placeholder), where `props = feature.properties || {}`.
No validation of any kind is performed on declared ids. -/
def loadOne (index : ℕ) (feature : InputFeature) : Feature :=
  let props : InputProps :=
    match feature.properties with
    | some p => p
    | none => ⟨none⟩
  { id :=
      match feature.id with
      | some i => if i = 0 then index else i
      | none => index
    name :=
      match props.name with
      | some s => if s = "" then "Country " ++ toString index else s
      | none => "Country " ++ toString index
    geometry := feature.geometry
    centroid := _calculateCentroid feature.geometry
    bounds := _calculateBounds feature.geometry }

/-- The `countries.features.map((feature, index) => ...)` call of the
source `load()`, one `loadOne` per record. -/
def load (features : List InputFeature) : List Feature :=
  features.mapIdx loadOne

/-- The `byId` lookup map built in `load`:
`countryData.forEach(country => byId.set(country.id, country))` starting
from an empty `Map`; `Map.prototype.set` on an existing key overwrites its
value. -/
def buildById (countryData : List Feature) : ℕ → Option Feature :=
  countryData.foldl
    (fun byId country => fun k => if k = country.id then some country else byId k)
    (fun _ => none)

/-! ## Color codec (`_idToColor`, `_colorToId`) -/

/-- One RGB pixel (channel values as read back from `getImageData`). -/
structure RGB where
  r : ℕ
  g : ℕ
  b : ℕ
deriving DecidableEq

/-- Source `_idToColor(id)`: channel extraction
`r = (id & 0xFF0000) >> 16`, `g = (id & 0x00FF00) >> 8`, `b = id & 0x0000FF`
(the source then formats these three channels as a CSS `rgb(r,g,b)`
string; the channels are the modelled content). -/
def _idToColor (id : ℕ) : RGB :=
  ⟨(id &&& 0xFF0000) >>> 16, (id &&& 0x00FF00) >>> 8, id &&& 0x0000FF⟩

/-- Source `_colorToId(r, g, b) = (r << 16) | (g << 8) | b`. -/
def _colorToId (r g b : ℕ) : ℕ :=
  (r <<< 16) ||| (g <<< 8) ||| b

/-! ## Picking (`getCountryAtUV`) -/

/-- Observable content of the lookup canvas: its resolution and the pixel
grid read back through `getImageData(x, y, 1, 1)` (an out-of-range read
yields transparent black, so the pixel function is total over `ℤ`). -/
structure LookupCanvas where
  width : ℕ
  height : ℕ
  pixel : ℤ → ℤ → RGB

/-- The state read by `getCountryAtUV`: `this.lookupCanvas` (null before
`_createLookupTexture` ran) and the `countries.byId` map held in the
global state store. -/
structure CountryRendererState where
  lookupCanvas : Option LookupCanvas
  byId : ℕ → Option Feature

/-- A texture-space UV coordinate (fields `uv.x`, `uv.y`). -/
structure UV where
  x : ℚ
  y : ℚ

/-- Source `getCountryAtUV(uv)`: returns null when `lookupCanvas` is null;
otherwise samples the pixel at `x = Math.floor(uv.x * width)`,
`y = Math.floor((1 - uv.y) * height)`, returns null on the exact sentinel
`(0,0,0)`, and otherwise resolves `_colorToId` of the pixel through the
`byId` map (`byId.get(id) || null`). -/
def getCountryAtUV (s : CountryRendererState) (uv : UV) : Option Feature :=
  match s.lookupCanvas with
  | none => none
  | some canvas =>
      let x : ℤ := ⌊uv.x * (canvas.width : ℚ)⌋
      let y : ℤ := ⌊(1 - uv.y) * (canvas.height : ℚ)⌋
      let pixel := canvas.pixel x y
      if pixel.r = 0 ∧ pixel.g = 0 ∧ pixel.b = 0 then none
      else s.byId (_colorToId pixel.r pixel.g pixel.b)

/-- The declared name of an input record: `feature.properties.name` when
both are present. -/
def declaredName (feature : InputFeature) : Option String :=
  match feature.properties with
  | some p => p.name
  | none => none

/-! ## Concrete sample inputs used by witnesses and counterexamples -/

/-- Square test ring (Scenario A of the spec): a Polygon coordinate array
holding one ring of four `(lon, lat)` positions. -/
def squareRing : Coords :=
  .arr [.arr [.pt 0 0, .pt 0 10, .pt 10 10, .pt 10 0]]

/-- Square test geometry. -/
def squareGeometry : Geometry :=
  ⟨"Polygon", some squareRing⟩

/-- Geometry with an absent `coordinates` field (zero vertices). -/
def emptyGeometry : Geometry :=
  ⟨"Polygon", none⟩

/-- Sample processed feature with id 258 = (0 << 16) | (1 << 8) | 2. -/
def c1Feature : Feature :=
  ⟨258, "Testland", squareGeometry, ⟨5, 5⟩, ⟨0, 10, 0, 10⟩⟩

/-- Sample lookup canvas whose every pixel holds the color (0, 1, 2). -/
def c1Canvas : LookupCanvas :=
  ⟨2048, 2048, fun _ _ => ⟨0, 1, 2⟩⟩

/-- Batch with an out-of-range declared id (2^24) at position 0 and a
record with no declared id or name at position 1. -/
def c5batch : List InputFeature :=
  [⟨some 16777216, some ⟨some "Atlantis"⟩, squareGeometry⟩,
   ⟨none, none, emptyGeometry⟩]

/-- Single-record batch declaring the out-of-range id 2^24. -/
def c6batch : List InputFeature :=
  [⟨some 16777216, some ⟨some "Atlantis"⟩, squareGeometry⟩]

/-- Batch in which both records declare the same id 5. -/
def c7batch : List InputFeature :=
  [⟨some 5, some ⟨some "A"⟩, emptyGeometry⟩,
   ⟨some 5, some ⟨some "B"⟩, emptyGeometry⟩]

/-! ## Projections (`CONFIG.globe.radius`, `_latLonToPoint`,
`latLonToPoint`, `pointToLatLon`, `flyTo`) -/

namespace CONFIG

namespace globe

/-- Source `config.js`: `globe: { radius: 1, ... }`. -/
def radius : ℝ := 1

end globe

end CONFIG

/-- A three.js `Vector3`. -/
@[ext]
structure Vector3 where
  x : ℝ
  y : ℝ
  z : ℝ

/-- Three.js `Vector3.length()`. -/
noncomputable def Vector3.length (v : Vector3) : ℝ :=
  Real.sqrt (v.x * v.x + v.y * v.y + v.z * v.z)

/-- Three.js `Vector3.normalize()`, which is
`divideScalar(this.length() || 1)` (a zero-length vector is left
unchanged). -/
noncomputable def Vector3.normalize (v : Vector3) : Vector3 :=
  let d := if v.length = 0 then 1 else v.length
  ⟨v.x / d, v.y / d, v.z / d⟩

/-- `Math.atan2 y x`: the principal argument of the point `(x, y)`, i.e.
the angle in `(-pi, pi]` between the positive x-axis and the ray to
`(x, y)`, with `atan2 0 0 = 0`. -/
noncomputable def atan2 (y x : ℝ) : ℝ :=
  Complex.arg ⟨x, y⟩

namespace countryRenderer

/-- Source `countries.js` `_latLonToPoint(lat, lon, radius)`:
`phi = (90 - lat) * pi/180`, `theta = (lon + 180) * pi/180`,
point `(-radius sin phi cos theta, radius cos phi, radius sin phi sin theta)`.
The source default for `radius` is `CONFIG.globe.radius`; it is passed
explicitly here. -/
noncomputable def _latLonToPoint (lat lon radius : ℝ) : Vector3 :=
  let phi := (90 - lat) * (Real.pi / 180)
  let theta := (lon + 180) * (Real.pi / 180)
  ⟨-radius * Real.sin phi * Real.cos theta,
    radius * Real.cos phi,
    radius * Real.sin phi * Real.sin theta⟩

end countryRenderer

namespace globeRenderer

/-- Source `globe.js` `latLonToPoint(lat, lon)`: same formulas as
`countryRenderer._latLonToPoint` at the fixed radius
`CONFIG.globe.radius`. -/
noncomputable def latLonToPoint (lat lon : ℝ) : Vector3 :=
  let phi := (90 - lat) * (Real.pi / 180)
  let theta := (lon + 180) * (Real.pi / 180)
  ⟨-CONFIG.globe.radius * Real.sin phi * Real.cos theta,
    CONFIG.globe.radius * Real.cos phi,
    CONFIG.globe.radius * Real.sin phi * Real.sin theta⟩

/-- Source `globe.js` `pointToLatLon(point)`:
normalizes the point, then `lat = 90 - acos(normalized.y) * 180/pi` and
`lon = atan2(normalized.z, -normalized.x) * 180/pi`.  (`Math.acos` on an
in-range argument is `Real.arccos`; every point this development applies
it to is in range.) -/
noncomputable def pointToLatLon (point : Vector3) : ℝ × ℝ :=
  let normalized := point.normalize
  let lat := 90 - Real.arccos normalized.y * (180 / Real.pi)
  let lon := atan2 normalized.z (-normalized.x) * (180 / Real.pi)
  (lat, lon)

end globeRenderer

namespace sceneManager

/-- Source `scene.js` `flyTo(lat, lon)` camera target:
`phi = (90 - lat) * pi/180`, `theta = (lon + 180) * pi/180`,
`(distance sin phi cos theta, distance cos phi, distance sin phi sin theta)`
where `distance` is the current camera distance.  Note the `x` component is
NOT negated, unlike both `latLonToPoint` projections. -/
noncomputable def flyToTarget (lat lon distance : ℝ) : Vector3 :=
  let phi := (90 - lat) * (Real.pi / 180)
  let theta := (lon + 180) * (Real.pi / 180)
  ⟨distance * Real.sin phi * Real.cos theta,
    distance * Real.cos phi,
    distance * Real.sin phi * Real.sin theta⟩

end sceneManager

/-! ## Helper lemmas -/

theorem shiftRight_land (a m k : ℕ) : (a &&& m) >>> k = (a >>> k) &&& (m >>> k) := by
  apply Nat.eq_of_testBit_eq
  intro i
  simp [Nat.testBit_shiftRight, Nat.testBit_and]

theorem land_two_pow_sub_one (a k : ℕ) : a &&& (2 ^ k - 1) = a % 2 ^ k := by
  apply Nat.eq_of_testBit_eq
  intro i
  simp [Nat.testBit_and, Nat.testBit_mod_two_pow, Nat.testBit_two_pow_sub_one, Bool.and_comm]

theorem buildById_append (fs : List Feature) (f : Feature) (k : ℕ) :
    buildById (fs ++ [f]) k = if k = f.id then some f else buildById fs k := by
  simp only [buildById, List.foldl_append, List.foldl_cons, List.foldl_nil]

theorem buildById_eq_find (fs : List Feature) (k : ℕ) :
    buildById fs k = fs.reverse.find? (fun f => f.id == k) := by
  induction fs using List.reverseRecOn with
  | nil => rfl
  | append_singleton fs f ih =>
      rw [buildById_append, List.reverse_append]
      by_cases h : k = f.id
      · simp [h]
      · simp only [List.reverse_singleton, List.singleton_append, List.find?_cons]
        have hbeq : (f.id == k) = false := by simpa using Ne.symm h
        rw [if_neg h, hbeq, ih]

theorem buildById_some (fs : List Feature) (k : ℕ) (f : Feature)
    (h : buildById fs k = some f) : f.id = k ∧ f ∈ fs := by
  rw [buildById_eq_find] at h
  have h1 := List.find?_some h
  have h2 := List.mem_of_find?_eq_some h
  exact ⟨by simpa using h1, by simpa using h2⟩

theorem buildById_none_of_not_mem (fs : List Feature) (k : ℕ)
    (h : ∀ f ∈ fs, f.id ≠ k) : buildById fs k = none := by
  rw [buildById_eq_find, List.find?_eq_none]
  intro x hx
  simp only [List.mem_reverse] at hx
  simpa using h x hx

theorem buildById_resolves (fs : List Feature) (k : ℕ) (f : Feature)
    (hmem : f ∈ fs) (hid : f.id = k) :
    ∃ g, buildById fs k = some g ∧ g.id = k := by
  rw [buildById_eq_find]
  have hsome : (fs.reverse.find? (fun f => f.id == k)).isSome := by
    rw [List.find?_isSome]
    exact ⟨f, List.mem_reverse.2 hmem, by simpa using hid⟩
  obtain ⟨g, hg⟩ := Option.isSome_iff_exists.1 hsome
  exact ⟨g, hg, by simpa using List.find?_some hg⟩

theorem foldl_min_le_init {α : Type} [LinearOrder α] (l : List α) (init : α) :
    l.foldl min init ≤ init := by
  induction l generalizing init with
  | nil => exact le_refl _
  | cons b t ih => exact le_trans (ih (min init b)) (min_le_left _ _)

theorem foldl_min_le_of_mem {α : Type} [LinearOrder α] (l : List α) :
    ∀ (init a : α), a ∈ l → l.foldl min init ≤ a := by
  induction l with
  | nil => intro init a ha; cases ha
  | cons b t ih =>
      intro init a ha
      rcases List.mem_cons.1 ha with rfl | hmem
      · exact le_trans (foldl_min_le_init t (min init a)) (min_le_right _ _)
      · exact ih (min init b) a hmem

theorem init_le_foldl_max {α : Type} [LinearOrder α] (l : List α) (init : α) :
    init ≤ l.foldl max init := by
  induction l generalizing init with
  | nil => exact le_refl _
  | cons b t ih => exact le_trans (le_max_left _ _) (ih (max init b))

theorem le_foldl_max_of_mem {α : Type} [LinearOrder α] (l : List α) :
    ∀ (init a : α), a ∈ l → a ≤ l.foldl max init := by
  induction l with
  | nil => intro init a ha; cases ha
  | cons b t ih =>
      intro init a ha
      rcases List.mem_cons.1 ha with rfl | hmem
      · exact le_trans (le_max_right _ _) (init_le_foldl_max t (max init a))
      · exact ih (max init b) a hmem

theorem centroidSteps_spec (l : List Coords)
    (ih : ∀ c ∈ l, ∀ acc : CentroidAcc, centroidStep c acc =
      ⟨acc.totalLat + ((vertices c).map Prod.snd).sum,
       acc.totalLon + ((vertices c).map Prod.fst).sum,
       acc.count + (vertices c).length⟩) :
    ∀ acc : CentroidAcc, centroidSteps l acc =
      ⟨acc.totalLat + ((verticesList l).map Prod.snd).sum,
       acc.totalLon + ((verticesList l).map Prod.fst).sum,
       acc.count + (verticesList l).length⟩ := by
  induction l with
  | nil => intro acc; simp [centroidSteps, verticesList]
  | cons c rest ihl =>
      intro acc
      rw [centroidSteps, ih c (by simp)]
      rw [ihl (fun c hc => ih c (by simp [hc]))]
      simp only [verticesList, List.map_append, List.sum_append, List.length_append,
        CentroidAcc.mk.injEq]
      refine ⟨by ring, by ring, by omega⟩

theorem centroidStep_spec (c : Coords) : ∀ acc : CentroidAcc,
    centroidStep c acc =
      ⟨acc.totalLat + ((vertices c).map Prod.snd).sum,
       acc.totalLon + ((vertices c).map Prod.fst).sum,
       acc.count + (vertices c).length⟩ := by
  induction c using Coords.inductionOn with
  | hpt lon lat => intro acc; simp [centroidStep, vertices]
  | harr cs ih =>
      intro acc
      rw [show centroidStep (.arr cs) acc = centroidSteps cs acc from rfl,
        show vertices (.arr cs) = verticesList cs from rfl]
      exact centroidSteps_spec cs ih acc

theorem boundsSteps_spec (l : List Coords)
    (ih : ∀ c ∈ l, ∀ b : Bounds, boundsStep c b =
      ⟨((vertices c).map Prod.snd).foldl min b.minLat,
       ((vertices c).map Prod.snd).foldl max b.maxLat,
       ((vertices c).map Prod.fst).foldl min b.minLon,
       ((vertices c).map Prod.fst).foldl max b.maxLon⟩) :
    ∀ b : Bounds, boundsSteps l b =
      ⟨((verticesList l).map Prod.snd).foldl min b.minLat,
       ((verticesList l).map Prod.snd).foldl max b.maxLat,
       ((verticesList l).map Prod.fst).foldl min b.minLon,
       ((verticesList l).map Prod.fst).foldl max b.maxLon⟩ := by
  induction l with
  | nil => intro b; simp [boundsSteps, verticesList]
  | cons c rest ihl =>
      intro b
      rw [boundsSteps, ih c (by simp)]
      rw [ihl (fun c hc => ih c (by simp [hc]))]
      simp only [verticesList, List.map_append, List.foldl_append]

theorem boundsStep_spec (c : Coords) : ∀ b : Bounds,
    boundsStep c b =
      ⟨((vertices c).map Prod.snd).foldl min b.minLat,
       ((vertices c).map Prod.snd).foldl max b.maxLat,
       ((vertices c).map Prod.fst).foldl min b.minLon,
       ((vertices c).map Prod.fst).foldl max b.maxLon⟩ := by
  induction c using Coords.inductionOn with
  | hpt lon lat => intro b; simp [boundsStep, vertices]
  | harr cs ih =>
      intro b
      rw [show boundsStep (.arr cs) b = boundsSteps cs b from rfl,
        show vertices (.arr cs) = verticesList cs from rfl]
      exact boundsSteps_spec cs ih b

/-! ## Claim C3 -/

/-- C3: the computed centroid is the unweighted arithmetic mean of
`(lat, lon)` over the flattened vertex list of the geometry (running sum
divided by vertex count), and a geometry with zero vertices yields
centroid (0, 0) rather than failing. -/
theorem c3_centroid_is_vertex_mean (geometry : Geometry) :
    _calculateCentroid geometry =
      if (geometryVertices geometry).length = 0 then ⟨0, 0⟩
      else
        ⟨((geometryVertices geometry).map Prod.snd).sum
            / ((geometryVertices geometry).length : ℚ),
         ((geometryVertices geometry).map Prod.fst).sum
            / ((geometryVertices geometry).length : ℚ)⟩ := by
  cases hc : geometry.coordinates with
  | none => simp [_calculateCentroid, geometryVertices, hc]
  | some c =>
      simp only [_calculateCentroid, geometryVertices, hc]
      rw [centroidStep_spec]
      by_cases hl : (vertices c).length = 0
      · simp [hl]
      · simp only [zero_add]
        rw [if_pos (Nat.pos_of_ne_zero hl), if_neg hl]

/-! ## Claim C4 -/

/-- C4: the computed bounds are the running min/max of latitude and
longitude over the flattened vertex list, seeded with the inverted tuple
`(90, -90, 180, -180)`; a geometry with zero vertices yields exactly that
inverted tuple, and for a geometry with at least one vertex the bounds
are correctly ordered (`minLat <= maxLat` and `minLon <= maxLon`). -/
theorem c4_bounds_spec (geometry : Geometry) :
    (_calculateBounds geometry =
      ⟨((geometryVertices geometry).map Prod.snd).foldl min 90,
       ((geometryVertices geometry).map Prod.snd).foldl max (-90),
       ((geometryVertices geometry).map Prod.fst).foldl min 180,
       ((geometryVertices geometry).map Prod.fst).foldl max (-180)⟩) ∧
    (geometryVertices geometry = [] →
      _calculateBounds geometry = ⟨90, -90, 180, -180⟩) ∧
    (geometryVertices geometry ≠ [] →
      (_calculateBounds geometry).minLat ≤ (_calculateBounds geometry).maxLat ∧
      (_calculateBounds geometry).minLon ≤ (_calculateBounds geometry).maxLon) := by
  have hmain : _calculateBounds geometry =
      ⟨((geometryVertices geometry).map Prod.snd).foldl min 90,
       ((geometryVertices geometry).map Prod.snd).foldl max (-90),
       ((geometryVertices geometry).map Prod.fst).foldl min 180,
       ((geometryVertices geometry).map Prod.fst).foldl max (-180)⟩ := by
    cases hc : geometry.coordinates with
    | none => simp [_calculateBounds, geometryVertices, hc]
    | some c =>
        simp only [_calculateBounds, geometryVertices, hc]
        rw [boundsStep_spec]
  refine ⟨hmain, ?_, ?_⟩
  · intro h
    rw [hmain, h]
    rfl
  · intro h
    obtain ⟨v, hv⟩ := List.exists_mem_of_ne_nil _ h
    have hlat : v.2 ∈ (geometryVertices geometry).map Prod.snd :=
      List.mem_map_of_mem _ hv
    have hlon : v.1 ∈ (geometryVertices geometry).map Prod.fst :=
      List.mem_map_of_mem _ hv
    rw [hmain]
    constructor
    · exact le_trans (foldl_min_le_of_mem _ _ _ hlat) (le_foldl_max_of_mem _ _ _ hlat)
    · exact le_trans (foldl_min_le_of_mem _ _ _ hlon) (le_foldl_max_of_mem _ _ _ hlon)

/-- Witness for C4 on the square test geometry (Scenario A): bounds
`(0, 10, 0, 10)`, correctly ordered. -/
theorem c4_witness :
    _calculateBounds squareGeometry = ⟨0, 10, 0, 10⟩ ∧
    (_calculateBounds squareGeometry).minLat ≤ (_calculateBounds squareGeometry).maxLat ∧
    (_calculateBounds squareGeometry).minLon ≤ (_calculateBounds squareGeometry).maxLon := by
  have h := c4_bounds_spec squareGeometry
  have hvs : geometryVertices squareGeometry = [(0, 0), (0, 10), (10, 10), (10, 0)] := by
    simp [geometryVertices, squareGeometry, squareRing, vertices, verticesList]
  refine ⟨?_, h.2.2 (by rw [hvs]; simp)⟩
  rw [h.1, hvs]
  norm_num [List.foldl_cons, List.foldl_nil, min_def, max_def]

/-! ## Claim C10 -/

/-- C10: calling `getCountryAtUV` before the lookup raster exists
(`lookupCanvas` is null) returns null for every uv input, for any content
of the `byId` map. -/
theorem c10_pick_before_build (byId : ℕ → Option Feature) (uv : UV) :
    getCountryAtUV ⟨none, byId⟩ uv = none := rfl

/-! ## Claim C2 -/

/-- C2: for every integer id in `[1, 2^24 - 2]`, decoding the encoded
color round-trips: `_colorToId` applied to the three channels produced by
`_idToColor id` yields exactly `id`. -/
theorem c2_id_color_roundtrip (id : ℕ) (h1 : 1 ≤ id) (h2 : id ≤ 2 ^ 24 - 2) :
    _colorToId (_idToColor id).r (_idToColor id).g (_idToColor id).b = id := by
  have hmask1 : (0xFF0000 : ℕ) >>> 16 = 2 ^ 8 - 1 := by decide
  have hmask2 : (0x00FF00 : ℕ) >>> 8 = 2 ^ 8 - 1 := by decide
  have hmask3 : (0x0000FF : ℕ) = 2 ^ 8 - 1 := by decide
  have hr : (id &&& 0xFF0000) >>> 16 = id / 2 ^ 16 % 2 ^ 8 := by
    rw [shiftRight_land, hmask1, land_two_pow_sub_one, Nat.shiftRight_eq_div_pow]
  have hg : (id &&& 0x00FF00) >>> 8 = id / 2 ^ 8 % 2 ^ 8 := by
    rw [shiftRight_land, hmask2, land_two_pow_sub_one, Nat.shiftRight_eq_div_pow]
  have hb : id &&& 0x0000FF = id % 2 ^ 8 := by
    rw [hmask3, land_two_pow_sub_one]
  show ((id &&& 0xFF0000) >>> 16) <<< 16 ||| ((id &&& 0x00FF00) >>> 8) <<< 8
      ||| (id &&& 0x0000FF) = id
  rw [hr, hg, hb]
  have hglt : id / 2 ^ 8 % 2 ^ 8 < 2 ^ 8 := Nat.mod_lt _ (by norm_num)
  have hblt : id % 2 ^ 8 < 2 ^ 8 := Nat.mod_lt _ (by norm_num)
  have e1 : (id / 2 ^ 16 % 2 ^ 8) <<< 16 ||| (id / 2 ^ 8 % 2 ^ 8) <<< 8
      = 2 ^ 8 * (2 ^ 8 * (id / 2 ^ 16 % 2 ^ 8) + id / 2 ^ 8 % 2 ^ 8) := by
    rw [Nat.shiftLeft_eq, Nat.shiftLeft_eq,
      Nat.mul_comm (id / 2 ^ 16 % 2 ^ 8) (2 ^ 16)]
    have h8 : (id / 2 ^ 8 % 2 ^ 8) * 2 ^ 8 < 2 ^ 16 := by nlinarith
    rw [← Nat.mul_add_lt_is_or h8]
    ring
  rw [e1, ← Nat.mul_add_lt_is_or hblt]
  omega

/-- Witness for C2 at id = 258. -/
theorem c2_witness :
    1 ≤ 258 ∧ 258 ≤ 2 ^ 24 - 2 ∧
    _colorToId (_idToColor 258).r (_idToColor 258).g (_idToColor 258).b = 258 :=
  ⟨by norm_num, by norm_num, c2_id_color_roundtrip 258 (by norm_num) (by norm_num)⟩

/-! ## Claim C7 -/

/-- C7 counterexample: both records of `c7batch` are ingested with id 5
(no error is raised anywhere), and the `byId` map silently resolves id 5
to the later feature "B" — exactly the last-write-wins behavior the claim
says is not permitted. -/
theorem c7_counterexample :
    (load c7batch).map Feature.id = [5, 5] ∧
    (load c7batch).map Feature.name = ["A", "B"] ∧
    (buildById (load c7batch) 5).map Feature.name = some "B" := by
  refine ⟨rfl, rfl, rfl⟩

/-- C7 amended: building the lookup index never fails (the code has no
`DuplicateIdError`); `byId.set` is called per feature in input order, so a
duplicated id silently resolves to the most recently inserted feature with
that id (last-write-wins): the lookup equals a first-match search over the
reversed feature list. -/
theorem c7_byId_last_write_wins (fs : List Feature) (k : ℕ) :
    buildById fs k = fs.reverse.find? (fun f => f.id == k) :=
  buildById_eq_find fs k

/-! ## Claim C5 -/

/-- C5 counterexample: the record at position 0 declares the id 2^24,
which is outside the valid range of the data-model invariant
(`id < 2^24 - 1`), so the claim requires the fallback id 0 (its
position); but `load` performs no validity check and keeps 16777216. -/
theorem c5_counterexample :
    (load c5batch).map Feature.id = [16777216, 1] ∧
    2 ^ 24 - 1 ≤ 16777216 ∧ (16777216 : ℕ) ≠ 0 := by
  refine ⟨rfl, by norm_num, by norm_num⟩

/-- C5 amended: each input record becomes exactly one feature, in order;
the feature id equals the declared id whenever it is present and nonzero
(with no range-validity check — out-of-range declared ids are kept
as-is), and otherwise the zero-based position; the name equals the
declared name whenever present and non-empty, and otherwise the
placeholder "Country N" where N is the position. -/
theorem c5_load_contract (records : List InputFeature) :
    (load records).length = records.length ∧
    ∀ i (hi : i < records.length) (hi2 : i < (load records).length),
      (∀ d, (records.get ⟨i, hi⟩).id = some d → d ≠ 0 →
          ((load records).get ⟨i, hi2⟩).id = d) ∧
      ((records.get ⟨i, hi⟩).id = none ∨ (records.get ⟨i, hi⟩).id = some 0 →
          ((load records).get ⟨i, hi2⟩).id = i) ∧
      (∀ s, declaredName (records.get ⟨i, hi⟩) = some s → s ≠ "" →
          ((load records).get ⟨i, hi2⟩).name = s) ∧
      (declaredName (records.get ⟨i, hi⟩) = none ∨
          declaredName (records.get ⟨i, hi⟩) = some "" →
          ((load records).get ⟨i, hi2⟩).name = "Country " ++ toString i) := by
  constructor
  · simp [load]
  · intro i hi hi2
    have hget : (load records).get ⟨i, hi2⟩ = loadOne i (records.get ⟨i, hi⟩) :=
      List.get_mapIdx records loadOne i hi hi2
    generalize records.get ⟨i, hi⟩ = r at hget ⊢
    obtain ⟨rid, rprops, rgeom⟩ := r
    rw [hget]
    refine ⟨?_, ?_, ?_, ?_⟩
    · intro d hd hd0
      cases rid with
      | none => exact absurd hd (by simp)
      | some j =>
          obtain rfl : j = d := by simpa using hd
          simp [loadOne, hd0]
    · intro hcase
      rcases hcase with h | h
      · obtain rfl : rid = none := by simpa using h
        simp [loadOne]
      · obtain rfl : rid = some 0 := by simpa using h
        simp [loadOne]
    · intro s hs hs0
      cases rprops with
      | none => exact absurd hs (by simp [declaredName])
      | some p =>
          have hname : p.name = some s := by simpa [declaredName] using hs
          simp [loadOne, hname, hs0]
    · intro hcase
      cases rprops with
      | none => simp [loadOne]
      | some p =>
          rcases hcase with h | h
          · have hname : p.name = none := by simpa [declaredName] using h
            simp [loadOne, hname]
          · have hname : p.name = some "" := by simpa [declaredName] using h
            simp [loadOne, hname]

/-- Witness for C5 on `c5batch`: the nonzero declared id at position 0 is
kept, and the record at position 1 with no declared id or name gets id 1
and the placeholder name "Country 1". -/
theorem c5_witness :
    ((load c5batch).get ⟨0, by decide⟩).id = 16777216 ∧
    ((load c5batch).get ⟨1, by decide⟩).id = 1 ∧
    ((load c5batch).get ⟨1, by decide⟩).name = "Country 1" := by
  have h := c5_load_contract c5batch
  refine ⟨(h.2 0 (by decide) (by decide)).1 16777216 rfl (by norm_num), ?_, ?_⟩
  · exact (h.2 1 (by decide) (by decide)).2.1 (Or.inl rfl)
  · have hn := (h.2 1 (by decide) (by decide)).2.2.2 (Or.inl rfl)
    rw [hn]
    rfl

/-! ## Claim C6 -/

/-- C6 counterexample: the batch declaring the out-of-range id 2^24 loads
without any error (the code has no `TopologyParseError` path), the feature
is published with id 16777216, and it is queryable via `byId`
afterward. -/
theorem c6_counterexample :
    (load c6batch).map Feature.id = [16777216] ∧
    (buildById (load c6batch) 16777216).map Feature.name = some "Atlantis" := by
  refine ⟨rfl, rfl⟩

/-- C6 amended: `load` performs no id-range validation: a batch containing
a record whose declared id is at least 2^24 - 1 still has every record
published as a feature, the offending feature keeps its out-of-range id,
and that id is queryable via the `byId` map afterward. -/
theorem c6_no_range_check (records : List InputFeature) (k : ℕ)
    (hk : k < records.length) (d : ℕ)
    (hd : (records.get ⟨k, hk⟩).id = some d) (hbig : 2 ^ 24 - 1 ≤ d) :
    (load records).length = records.length ∧
    ∃ f ∈ load records, f.id = d ∧
      ∃ g, buildById (load records) d = some g ∧ g.id = d := by
  have hlen : (load records).length = records.length := by simp [load]
  have hk2 : k < (load records).length := by rw [hlen]; exact hk
  have hget : ((load records).get ⟨k, hk2⟩).id = d := by
    have h : (load records).get ⟨k, hk2⟩ = loadOne k (records.get ⟨k, hk⟩) :=
      List.get_mapIdx records loadOne k hk hk2
    rw [h]
    simp only [loadOne, hd]
    rw [if_neg (by omega)]
  refine ⟨hlen, (load records).get ⟨k, hk2⟩, List.get_mem _ _ _, hget, ?_⟩
  exact buildById_resolves _ d _ (List.get_mem _ _ _) hget

/-- Witness for C6 on `c6batch`. -/
theorem c6_witness :
    (load c6batch).length = 1 ∧
    (buildById (load c6batch) 16777216).isSome = true := by
  have h := c6_no_range_check c6batch 0 (by decide) 16777216 rfl (by norm_num)
  refine ⟨h.1, ?_⟩
  obtain ⟨f, -, -, g, hg, -⟩ := h.2
  rw [hg]
  rfl

/-! ## Claim C1 -/

/-- C1: a pick against a built lookup raster samples the pixel at
`x = floor(u * width)`, `y = floor((1 - v) * height)`; on the exact
sentinel (0,0,0) it returns none; otherwise it returns the feature whose
id is `(r << 16) | (g << 8) | b` and none when no feature has that id. -/
theorem c1_pick_spec (countryData : List Feature) (canvas : LookupCanvas)
    (uv : UV) (px : RGB)
    (hpx : px = canvas.pixel ⌊uv.x * (canvas.width : ℚ)⌋
      ⌊(1 - uv.y) * (canvas.height : ℚ)⌋) :
    (px = ⟨0, 0, 0⟩ →
      getCountryAtUV ⟨some canvas, buildById countryData⟩ uv = none) ∧
    (px ≠ ⟨0, 0, 0⟩ →
      getCountryAtUV ⟨some canvas, buildById countryData⟩ uv
        = buildById countryData (px.r <<< 16 ||| px.g <<< 8 ||| px.b)) ∧
    (px ≠ ⟨0, 0, 0⟩ → ∀ f,
      getCountryAtUV ⟨some canvas, buildById countryData⟩ uv = some f →
      f.id = (px.r <<< 16 ||| px.g <<< 8 ||| px.b) ∧ f ∈ countryData) ∧
    (px ≠ ⟨0, 0, 0⟩ →
      (∀ f ∈ countryData, f.id ≠ (px.r <<< 16 ||| px.g <<< 8 ||| px.b)) →
      getCountryAtUV ⟨some canvas, buildById countryData⟩ uv = none) := by
  have hsent : (px.r = 0 ∧ px.g = 0 ∧ px.b = 0) ↔ px = ⟨0, 0, 0⟩ := by
    cases px
    simp [RGB.mk.injEq]
  have hbody : getCountryAtUV ⟨some canvas, buildById countryData⟩ uv
      = if px.r = 0 ∧ px.g = 0 ∧ px.b = 0 then none
        else buildById countryData (_colorToId px.r px.g px.b) := by
    simp only [getCountryAtUV, ← hpx]
  refine ⟨?_, ?_, ?_, ?_⟩
  · intro h
    rw [hbody, if_pos (hsent.2 h)]
  · intro h
    rw [hbody, if_neg (fun hc => h (hsent.1 hc))]
    rfl
  · intro h f hf
    rw [hbody, if_neg (fun hc => h (hsent.1 hc))] at hf
    have := buildById_some _ _ _ hf
    exact ⟨this.1, this.2⟩
  · intro h hall
    rw [hbody, if_neg (fun hc => h (hsent.1 hc))]
    exact buildById_none_of_not_mem _ _ hall

/-- Witness for C1: on a canvas whose pixels all hold (0, 1, 2), picking
at uv (1/2, 1/2) decodes id 258 and finds the sample feature. -/
theorem c1_witness :
    (getCountryAtUV ⟨some c1Canvas, buildById [c1Feature]⟩ ⟨1/2, 1/2⟩).map
      Feature.id = some 258 := by
  have h := (c1_pick_spec [c1Feature] c1Canvas ⟨1/2, 1/2⟩ ⟨0, 1, 2⟩ rfl).2.1
    (by decide)
  rw [h]
  rfl

/-! ## Claim C9 -/

/-- C9 counterexample: at lat 0, lon 0 and radius = distance = 1, the
country-renderer projection yields x = 1 while the flyTo camera target
yields x = -1: the two call sites use opposite sign conventions for x. -/
theorem c9_counterexample :
    (countryRenderer._latLonToPoint 0 0 1).x = 1 ∧
    (sceneManager.flyToTarget 0 0 1).x = -1 := by
  have hphi : ((90 : ℝ) - 0) * (Real.pi / 180) = Real.pi / 2 := by ring
  have htheta : ((0 : ℝ) + 180) * (Real.pi / 180) = Real.pi := by ring
  constructor
  · show -1 * Real.sin (((90 : ℝ) - 0) * (Real.pi / 180))
        * Real.cos (((0 : ℝ) + 180) * (Real.pi / 180)) = 1
    rw [hphi, htheta, Real.sin_pi_div_two, Real.cos_pi]
    norm_num
  · show (1 : ℝ) * Real.sin (((90 : ℝ) - 0) * (Real.pi / 180))
        * Real.cos (((0 : ℝ) + 180) * (Real.pi / 180)) = -1
    rw [hphi, htheta, Real.sin_pi_div_two, Real.cos_pi]
    norm_num

/-- C9 amended: the two projection call sites agree on the y and z
components but compute the Cartesian x with opposite signs: for every
lat, lon and equal radius/distance, the flyTo camera target is exactly the
`_latLonToPoint` result with its x negated. -/
theorem c9_flyTo_mirrors_x (lat lon r : ℝ) :
    sceneManager.flyToTarget lat lon r =
      ⟨-(countryRenderer._latLonToPoint lat lon r).x,
        (countryRenderer._latLonToPoint lat lon r).y,
        (countryRenderer._latLonToPoint lat lon r).z⟩ := by
  ext <;> simp [sceneManager.flyToTarget, countryRenderer._latLonToPoint]

/-! ## Claim C8 -/

/-- C8 counterexample: at lat 0, lon 0 the round trip
`pointToLatLon (latLonToPoint 0 0)` returns longitude 180, not
(approximately) the longitude 0 that was projected. -/
theorem c8_counterexample :
    globeRenderer.pointToLatLon (globeRenderer.latLonToPoint 0 0) = (0, 180) ∧
    (180 : ℝ) ≠ 0 := by
  have hphi : ((90 : ℝ) - 0) * (Real.pi / 180) = Real.pi / 2 := by ring
  have htheta : ((0 : ℝ) + 180) * (Real.pi / 180) = Real.pi := by ring
  have hpoint : globeRenderer.latLonToPoint 0 0 = ⟨1, 0, 0⟩ := by
    simp only [globeRenderer.latLonToPoint, CONFIG.globe.radius, hphi, htheta]
    ext <;> simp
  have hnorm : (Vector3.mk 1 0 0).normalize = ⟨1, 0, 0⟩ := by
    have hlen : (Vector3.mk 1 0 0).length = 1 := by
      simp [Vector3.length]
    simp only [Vector3.normalize, hlen]
    ext <;> simp
  have harg : atan2 0 (-(1 : ℝ)) = Real.pi := by
    show Complex.arg ⟨-1, 0⟩ = Real.pi
    have : (⟨-1, 0⟩ : ℂ) = -1 := by
      apply Complex.ext <;> simp
    rw [this, Complex.arg_neg_one]
  refine ⟨?_, by norm_num⟩
  simp only [globeRenderer.pointToLatLon, hpoint, hnorm]
  rw [Prod.mk.injEq]
  constructor
  · rw [Real.arccos_zero]
    field_simp
    ring
  · rw [harg]
    field_simp

/-- C8 amended: the unprojection is not the inverse of the projection: for
every lat strictly between -90 and 90 and lon in (-180, 180], the round
trip `pointToLatLon (latLonToPoint lat lon)` recovers the latitude exactly
but returns the longitude shifted by 180 degrees (reduced into
(-180, 180]): `lon + 180` when `lon <= 0` and `lon - 180` otherwise. -/
theorem c8_roundtrip_shifted (lat lon : ℝ) (hlat1 : -90 < lat) (hlat2 : lat < 90)
    (hlon1 : -180 < lon) (hlon2 : lon ≤ 180) :
    globeRenderer.pointToLatLon (globeRenderer.latLonToPoint lat lon) =
      (lat, if lon ≤ 0 then lon + 180 else lon - 180) := by
  have hπ := Real.pi_pos
  set φ := (90 - lat) * (Real.pi / 180) with hφdef
  set θ := (lon + 180) * (Real.pi / 180) with hθdef
  have hφ0 : 0 < φ := mul_pos (by linarith) (by positivity)
  have hφπ : φ < Real.pi := by
    have h := mul_lt_mul_of_pos_right (show (90 : ℝ) - lat < 180 by linarith)
      (show 0 < Real.pi / 180 by positivity)
    calc φ < 180 * (Real.pi / 180) := h
      _ = Real.pi := by ring
  have hθ0 : 0 < θ := mul_pos (by linarith) (by positivity)
  have hθ2π : θ ≤ 2 * Real.pi := by
    have h := mul_le_mul_of_nonneg_right (show lon + 180 ≤ 360 by linarith)
      (show 0 ≤ Real.pi / 180 by positivity)
    calc θ ≤ 360 * (Real.pi / 180) := h
      _ = 2 * Real.pi := by ring
  have hsinφ : 0 < Real.sin φ := Real.sin_pos_of_pos_of_lt_pi hφ0 hφπ
  have hpoint : globeRenderer.latLonToPoint lat lon =
      ⟨-(Real.sin φ * Real.cos θ), Real.cos φ, Real.sin φ * Real.sin θ⟩ := by
    simp only [globeRenderer.latLonToPoint, CONFIG.globe.radius, ← hφdef, ← hθdef]
    ext <;> simp
  have hlen : (globeRenderer.latLonToPoint lat lon).length = 1 := by
    rw [hpoint]
    simp only [Vector3.length]
    have hsq : -(Real.sin φ * Real.cos θ) * -(Real.sin φ * Real.cos θ)
        + Real.cos φ * Real.cos φ
        + Real.sin φ * Real.sin θ * (Real.sin φ * Real.sin θ)
        = Real.sin φ ^ 2 * (Real.sin θ ^ 2 + Real.cos θ ^ 2)
          + Real.cos φ ^ 2 := by ring
    rw [hsq, Real.sin_sq_add_cos_sq, mul_one, Real.sin_sq_add_cos_sq,
      Real.sqrt_one]
  have hnorm : (globeRenderer.latLonToPoint lat lon).normalize =
      ⟨-(Real.sin φ * Real.cos θ), Real.cos φ, Real.sin φ * Real.sin θ⟩ := by
    simp only [Vector3.normalize, hlen]
    simp only [hpoint]
    ext <;> simp
  have hmk : ∀ t : ℝ, (⟨Real.sin φ * Real.cos t, Real.sin φ * Real.sin t⟩ : ℂ)
      = (Real.sin φ : ℂ) * (Complex.cos (t : ℂ) + Complex.sin (t : ℂ) * Complex.I) := by
    intro t
    apply Complex.ext <;>
      simp [Complex.mul_re, Complex.mul_im, Complex.add_re, Complex.add_im,
        Complex.cos_ofReal_re, Complex.sin_ofReal_re, Complex.cos_ofReal_im,
        Complex.sin_ofReal_im]
  simp only [globeRenderer.pointToLatLon, hnorm]
  rw [Prod.mk.injEq]
  constructor
  · rw [Real.arccos_cos hφ0.le hφπ.le, hφdef]
    field_simp
  · rw [neg_neg]
    by_cases hcase : lon ≤ 0
    · rw [if_pos hcase]
      have hθπ : θ ≤ Real.pi := by
        have h := mul_le_mul_of_nonneg_right (show lon + 180 ≤ 180 by linarith)
          (show 0 ≤ Real.pi / 180 by positivity)
        calc θ ≤ 180 * (Real.pi / 180) := h
          _ = Real.pi := by ring
      have harg : atan2 (Real.sin φ * Real.sin θ) (Real.sin φ * Real.cos θ) = θ := by
        show Complex.arg ⟨Real.sin φ * Real.cos θ, Real.sin φ * Real.sin θ⟩ = θ
        rw [hmk θ]
        exact Complex.arg_mul_cos_add_sin_mul_I hsinφ
          (Set.mem_Ioc.mpr ⟨by linarith, hθπ⟩)
      rw [harg, hθdef]
      field_simp
    · rw [if_neg hcase]
      have hθπ : Real.pi < θ := by
        have h := mul_lt_mul_of_pos_right (show (180 : ℝ) < lon + 180 by linarith)
          (show 0 < Real.pi / 180 by positivity)
        calc Real.pi = 180 * (Real.pi / 180) := by ring
          _ < θ := h
      have harg : atan2 (Real.sin φ * Real.sin θ) (Real.sin φ * Real.cos θ)
          = θ - 2 * Real.pi := by
        show Complex.arg ⟨Real.sin φ * Real.cos θ, Real.sin φ * Real.sin θ⟩
          = θ - 2 * Real.pi
        rw [show Real.cos θ = Real.cos (θ - 2 * Real.pi) from
            (Real.cos_sub_two_pi θ).symm,
          show Real.sin θ = Real.sin (θ - 2 * Real.pi) from
            (Real.sin_sub_two_pi θ).symm,
          hmk (θ - 2 * Real.pi)]
        exact Complex.arg_mul_cos_add_sin_mul_I hsinφ
          (Set.mem_Ioc.mpr ⟨by linarith, by linarith⟩)
      rw [harg, hθdef]
      field_simp
      ring

/-- Witness for C8 at lat 30, lon 45: the round trip returns latitude 30
and longitude -135 (= 45 - 180). -/
theorem c8_witness :
    globeRenderer.pointToLatLon (globeRenderer.latLonToPoint 30 45) = (30, -135) := by
  have h := c8_roundtrip_shifted 30 45 (by norm_num) (by norm_num)
    (by norm_num) (by norm_num)
  rw [h]
  norm_num

end GlobeMapQuiz
